import Mathlib

/-!
Verification of `zfs-rewrite.py` against its specification.

The Python source is shallowly embedded as follows:

* The filesystem visible to a single run is a finite association of paths
  (strings) to device/inode pairs; only regular files appear in it.  `os.stat`
  becomes a lookup returning `Option DevInode`; `os.path.isfile` tests that the
  lookup succeeds.  Within a run the filesystem is not mutated by the tool
  (the external command rewrites contents in place, never identities), so a
  single association models every stat performed during the run.
* The module-level sets `FILE_PATH_SEEN : Set[str]` and
  `DEVICE_INODES_SEEN : Dict[int, Set[int]]` become a `TrackerState`
  holding a duplicate-free list of paths and an association list from device
  ids to duplicate-free lists of inode numbers.
* Python exceptions become `Except` results (`OSError` from `os.stat`,
  `CalledProcessError` from `subprocess.check_call`, the `AttributeError`
  raised by `None.decode()`, `AssertionError` from `assert`).
* The state file becomes an `Option (List String)`: `none` when the file does
  not exist, otherwise the list of its lines (without terminating newlines).
* `os.walk` output is a list of joined file paths handed to `collect_files`.
* The external command `zfs rewrite` is an oracle `String → Bool` giving the
  success/failure outcome for each path.
-/

namespace ZfsRewrite

/-- Decidable equality of `Except` results, for evaluating the embedding on
concrete inputs. -/
instance {ε α : Type} [DecidableEq ε] [DecidableEq α] :
    DecidableEq (Except ε α) := fun x y =>
  match x, y with
  | Except.ok a, Except.ok b =>
    if h : a = b then isTrue (by rw [h])
    else isFalse (fun hh => h (by cases hh; rfl))
  | Except.ok _, Except.error _ => isFalse (fun hh => Except.noConfusion hh)
  | Except.error _, Except.ok _ => isFalse (fun hh => Except.noConfusion hh)
  | Except.error e, Except.error f =>
    if h : e = f then isTrue (by rw [h])
    else isFalse (fun hh => h (by cases hh; rfl))

/-- The `DevInode` pair: device/inode identity uniquely identifying a file, mirroring the
`NamedTuple("DevInode", [("dev", int), ("inode", int)])` of the source
(`st_dev` and `st_ino` are nonnegative machine integers, modelled as `Nat`). -/
structure DevInode where
  dev : Nat
  inode : Nat
deriving DecidableEq

/-- The filesystem seen by one run: the (finite) collection of regular files,
each path associated to its device/inode identity.  Hardlinks are distinct
paths associated to the same `DevInode`. -/
structure FS where
  files : List (String × DevInode)
deriving DecidableEq

/-- Lookup of a path in the regular-file table (first match wins). -/
def statList (l : List (String × DevInode)) (p : String) : Option DevInode :=
  match l with
  | [] => none
  | (q, di) :: rest => if q = p then some di else statList rest p

/-- Model of `os.stat(path)`: `some` identity for a regular file, `none` means the stat
call raises `OSError` (no such regular file in this model). -/
def FS.stat (fs : FS) (file_path : String) : Option DevInode :=
  statList fs.files file_path

/-- Model of `os.path.isfile(path)`: true when the path resolves to a regular file. -/
def FS.isfile (fs : FS) (file_path : String) : Bool :=
  (fs.stat file_path).isSome

/-- Python `set.add`: insert an element unless already present. -/
def addElem {α : Type} [DecidableEq α] (a : α) (l : List α) : List α :=
  if a ∈ l then l else a :: l

/-- Model of `dict.get(dev, None)` on the device → inode-set dictionary. -/
def devGet (m : List (Nat × List Nat)) (d : Nat) : Option (List Nat) :=
  match m with
  | [] => none
  | (k, v) :: rest => if k = d then some v else devGet rest d

/-- Model of `dict[dev] = v`: replace the binding of an existing key (used only when
the key is present; on an absent key it appends a fresh binding). -/
def devSet (m : List (Nat × List Nat)) (d : Nat) (v : List Nat) :
    List (Nat × List Nat) :=
  match m with
  | [] => [(d, v)]
  | (k, w) :: rest => if k = d then (k, v) :: rest else (k, w) :: devSet rest d v

/-- Effect of the `mark_seen` dictionary update on `DEVICE_INODES_SEEN`:
fetch the inode set of the device (creating it when absent) and add the
inode to it. -/
def addInode (m : List (Nat × List Nat)) (di : DevInode) :
    List (Nat × List Nat) :=
  match devGet m di.dev with
  | none => (di.dev, [di.inode]) :: m
  | some inodes => devSet m di.dev (addElem di.inode inodes)

/-- Membership test of an identity in `DEVICE_INODES_SEEN`, the test performed
by `check_seen`: the device has an inode set and the inode belongs to it
(an absent device contributes the empty inode set). -/
def devSeen (m : List (Nat × List Nat)) (di : DevInode) : Bool :=
  decide (di.inode ∈ (devGet m di.dev).getD [])

/-- The in-memory identity tracker: the module-level globals
`FILE_PATH_SEEN : Set[str]` and `DEVICE_INODES_SEEN : Dict[int, Set[int]]`. -/
structure TrackerState where
  FILE_PATH_SEEN : List String
  DEVICE_INODES_SEEN : List (Nat × List Nat)
deriving DecidableEq

/-- Both global sets start empty at process start. -/
def emptyTracker : TrackerState := ⟨[], []⟩

/-- The function `check_seen(file_path)`: `ok none` when the exact path or its hardlink
group was already seen (Python return `None`), `ok (some di)` when the file is
still eligible (Python returns the `DevInode`), `error ()` when `os.stat`
raises. -/
def check_seen (fs : FS) (st : TrackerState) (file_path : String) :
    Except Unit (Option DevInode) :=
  if file_path ∈ st.FILE_PATH_SEEN then Except.ok none
  else
    match fs.stat file_path with
    | none => Except.error ()
    | some statInfo =>
      match devGet st.DEVICE_INODES_SEEN statInfo.dev with
      | some inodes =>
        if statInfo.inode ∈ inodes then Except.ok none
        else Except.ok (some statInfo)
      | none => Except.ok (some statInfo)

/-- The effect of a successful `mark_seen(file_path, di)` on the tracker. -/
def markKnown (st : TrackerState) (file_path : String) (di : DevInode) :
    TrackerState :=
  { FILE_PATH_SEEN := addElem file_path st.FILE_PATH_SEEN
    DEVICE_INODES_SEEN := addInode st.DEVICE_INODES_SEEN di }

/-- The function `mark_seen(file_path, dev_inode=None)`: add the path to `FILE_PATH_SEEN`,
derive the identity by `os.stat` when not supplied, and record it in
`DEVICE_INODES_SEEN`.  `error ()` models the `OSError` raised when the
identity is not supplied and the stat fails. -/
def mark_seen (fs : FS) (st : TrackerState) (file_path : String)
    (dev_inode : Option DevInode) : Except Unit TrackerState :=
  match dev_inode with
  | some di => Except.ok (markKnown st file_path di)
  | none =>
    match fs.stat file_path with
    | none => Except.error ()
    | some statInfo => Except.ok (markKnown st file_path statInfo)

/-- The characters removed by Python `str.strip()`: exactly those for which
`str.isspace()` holds — U+0009..U+000D, U+001C..U+001F, the space, U+0085,
U+00A0, U+1680, U+2000..U+200A, U+2028, U+2029, U+202F, U+205F and U+3000. -/
def isSpaceChar (c : Char) : Bool :=
  (0x09 ≤ c.toNat && c.toNat ≤ 0x0d) ||
  (0x1c ≤ c.toNat && c.toNat ≤ 0x1f) ||
  c.toNat = 0x20 || c.toNat = 0x85 || c.toNat = 0xa0 || c.toNat = 0x1680 ||
  (0x2000 ≤ c.toNat && c.toNat ≤ 0x200a) ||
  c.toNat = 0x2028 || c.toNat = 0x2029 || c.toNat = 0x202f ||
  c.toNat = 0x205f || c.toNat = 0x3000

/-- Python `line.strip()`: drop whitespace from both ends. -/
def pyStrip (s : String) : String :=
  String.mk (((s.data.dropWhile isSpaceChar).reverse.dropWhile isSpaceChar).reverse)

/-- Split a character stream at the line separators recognised by Python's
universal-newlines text mode (the loader opens the state file with the
default `newline=None`): a bare `'\n'`, a bare `'\r'`, or the pair `"\r\n"`
counting as a single separator.  The accumulator holds the current line
reversed. -/
def splitNl : List Char → List Char → List (List Char)
  | [], acc => [acc.reverse]
  | '\r' :: '\n' :: rest, acc => acc.reverse :: splitNl rest []
  | '\r' :: rest, acc => acc.reverse :: splitNl rest []
  | '\n' :: rest, acc => acc.reverse :: splitNl rest []
  | c :: rest, acc => splitNl rest (c :: acc)

/-- The state-file lines contributed by appending `path` plus a terminating
newline, as read back in universal-newlines mode: split the written chunk at
line separators and drop the empty piece after the final terminator.  Every
chunk ends with the written `'\n'`, so no separator spans two chunks and
per-chunk splitting of the whole file is exact (a chunk ending in `'\r'`
merges with its terminator into the single separator `"\r\n"`). -/
def pyLines (s : String) : List String :=
  ((splitNl (s.data ++ ['\n']) []).map String.mk).dropLast

/-- One iteration of the `load_rewritten_paths` loop: strip the line, skip it
when blank or no longer resolving to a regular file, otherwise `mark_seen`.
The `error` branch of `mark_seen` is unreachable here because the
`os.path.isfile` guard ensures the subsequent stat succeeds. -/
def loadLine (fs : FS) (st : TrackerState) (line : String) : TrackerState :=
  if pyStrip line = "" then st
  else if fs.isfile (pyStrip line) = true then
    match mark_seen fs st (pyStrip line) none with
    | Except.ok st2 => st2
    | Except.error _ => st
  else st

/-- Folding the loop over all lines of an existing state file. -/
def loadLines (fs : FS) (lines : List String) (st : TrackerState) : TrackerState :=
  List.foldl (loadLine fs) st lines

/-- The function `load_rewritten_paths(file_path)`: a missing state file loads nothing;
otherwise every line is processed by `loadLine`.  The state-file argument is
the file's content as a list of lines (`none` when the file does not exist). -/
def load_rewritten_paths (fs : FS) (stateFile : Option (List String))
    (st : TrackerState) : TrackerState :=
  match stateFile with
  | none => st
  | some lines => loadLines fs lines st

/-- The eligibility test applied by `collect_files` to every walked entry:
`check_seen` returned a `DevInode` (not `None`).  A raising `check_seen` is
unreachable behind the `isfile` guard on an unchanging filesystem. -/
def eligibleB (fs : FS) (st : TrackerState) (file_path : String) : Bool :=
  match check_seen fs st file_path with
  | Except.ok (some _) => true
  | _ => false

/-- The function `collect_files(path)`: keep every walked entry that is a regular file and
still eligible.  `walk` is the stream of joined paths produced by `os.walk`;
the Python function returns them as a set, modelled as the filtered list (the
processing order is quantified separately over permutations). -/
def collect_files (fs : FS) (st : TrackerState) (walk : List String) :
    List String :=
  walk.filter (fun file_path => fs.isfile file_path && eligibleB fs st file_path)

/-- The Python exceptions that can escape the processing loop. -/
inductive PyError where
  | calledProcessError (stderr : Option String)
  | attributeError
  | oSError
  | assertionError
deriving DecidableEq

/-- Model of `subprocess.check_call` on `["zfs", "rewrite", file_path]`:
the oracle gives the command's success outcome; a non-zero exit raises
`CalledProcessError`.  `check_call` does not capture output, so the exception
carries `stderr = None`. -/
def checkCall (oracle : String → Bool) (file_path : String) : Except PyError Unit :=
  if oracle file_path = true then Except.ok ()
  else Except.error (PyError.calledProcessError none)

/-- The `except subprocess.CalledProcessError` handler of the source: it
formats `e.stderr.decode().strip()` and re-raises `e`.  Evaluating
`.decode()` on a `None` stderr raises `AttributeError` before the message is
printed, so that exception propagates instead of `e`. -/
def rewriteErrorOf : PyError → PyError
  | PyError.calledProcessError stderr =>
    match stderr with
    | none => PyError.attributeError
    | some _ => PyError.calledProcessError stderr
  | e => e

/-- The mutable state of the `rewrite_zfs_files` loop, instrumented with the
observable traces: `invoked` is the list of paths passed to the external
command, `rewrittenList` the paths counted by `num_rewritten` (including
dry-run would-rewrites), `appended` the paths written to the state file.
`error = some e` means an exception is propagating and the loop has exited. -/
structure LoopState where
  st : TrackerState
  invoked : List String
  rewrittenList : List String
  appended : List String
  numProcessed : Nat
  numRewritten : Nat
  error : Option PyError
deriving DecidableEq

/-- The tail of a successful (or dry-run) rewrite of an eligible file:
`num_rewritten += 1`, `mark_seen(file_path, dev_inode)`, and — outside dry-run
mode — append the path to the state file.  The `mark_seen` error branch is
unreachable because `dev_inode` is supplied. -/
def finishRewrite (fs : FS) (dryRun : Bool) (s : LoopState) (file_path : String)
    (dev_inode : DevInode) : LoopState :=
  match mark_seen fs s.st file_path (some dev_inode) with
  | Except.ok st2 =>
    if dryRun then
      { s with numRewritten := s.numRewritten + 1
               rewrittenList := s.rewrittenList ++ [file_path]
               st := st2 }
    else
      { s with numRewritten := s.numRewritten + 1
               rewrittenList := s.rewrittenList ++ [file_path]
               st := st2
               appended := s.appended ++ [file_path] }
  | Except.error _ => { s with error := some PyError.oSError }

/-- One iteration of the `for file_path in files` loop (the `num_processed`
increment of the source happens before the branches; here it is merged into
every branch).  Skips: not a regular file any more, or `check_seen` returned
`None`.  Otherwise the file is rewritten (really or in dry-run mode); a
failing external command raises through `rewriteErrorOf`.  A raising
`check_seen` would propagate as `OSError` (unreachable behind the `isfile`
guard on an unchanging filesystem). -/
def processFile (fs : FS) (oracle : String → Bool) (dryRun : Bool)
    (s : LoopState) (file_path : String) : LoopState :=
  if fs.isfile file_path = true then
    match check_seen fs s.st file_path with
    | Except.error _ =>
      { s with numProcessed := s.numProcessed + 1, error := some PyError.oSError }
    | Except.ok none =>
      { s with numProcessed := s.numProcessed + 1 }
    | Except.ok (some dev_inode) =>
      if dryRun then
        finishRewrite fs dryRun
          { s with numProcessed := s.numProcessed + 1 } file_path dev_inode
      else
        match checkCall oracle file_path with
        | Except.ok _ =>
          finishRewrite fs dryRun
            { s with numProcessed := s.numProcessed + 1
                     invoked := s.invoked ++ [file_path] } file_path dev_inode
        | Except.error e =>
          { s with numProcessed := s.numProcessed + 1
                   invoked := s.invoked ++ [file_path]
                   error := some (rewriteErrorOf e) }
  else
    { s with numProcessed := s.numProcessed + 1 }

/-- The `for` loop over the candidate paths: once an exception is propagating
(`error ≠ none`) the loop has exited and the remaining items are untouched. -/
def runLoop (fs : FS) (oracle : String → Bool) (dryRun : Bool) :
    LoopState → List String → LoopState
  | s, [] => s
  | s, file_path :: rest =>
    match s.error with
    | some _ => s
    | none => runLoop fs oracle dryRun (processFile fs oracle dryRun s file_path) rest

/-- Loop state at entry of `rewrite_zfs_files` (counters zero, traces empty). -/
def initLoop (st : TrackerState) : LoopState :=
  { st := st, invoked := [], rewrittenList := [], appended := [],
    numProcessed := 0, numRewritten := 0, error := none }

/-- Result of one whole `rewrite_zfs_files` call.  `opened` records whether
the state file was opened for append (exactly when not a dry run). -/
structure RunResult where
  st : TrackerState
  invoked : List String
  rewrittenList : List String
  appended : List String
  numProcessed : Nat
  numRewritten : Nat
  error : Option PyError
  opened : Bool
deriving DecidableEq

/-- The function `rewrite_zfs_files(files, rewritten_paths_file, dry_run)`: open the state
file for append unless dry-run, run the loop, and — when no exception is
propagating — check the final `assert num_processed == num_files`.  `files`
is the candidate set in its (arbitrary) iteration order; `st` is the tracker
contents at entry. -/
def rewrite_zfs_files (fs : FS) (oracle : String → Bool) (st : TrackerState)
    (files : List String) (dry_run : Bool) : RunResult :=
  { st := (runLoop fs oracle dry_run (initLoop st) files).st
    invoked := (runLoop fs oracle dry_run (initLoop st) files).invoked
    rewrittenList := (runLoop fs oracle dry_run (initLoop st) files).rewrittenList
    appended := (runLoop fs oracle dry_run (initLoop st) files).appended
    numProcessed := (runLoop fs oracle dry_run (initLoop st) files).numProcessed
    numRewritten := (runLoop fs oracle dry_run (initLoop st) files).numRewritten
    error :=
      match (runLoop fs oracle dry_run (initLoop st) files).error with
      | some e => some e
      | none =>
        if (runLoop fs oracle dry_run (initLoop st) files).numProcessed
            = files.length then none
        else some PyError.assertionError
    opened := !dry_run }

/-- The lines contributed to the state file by appending each recorded path
followed by a newline. -/
def appendedLines (paths : List String) : List String :=
  (paths.map pyLines).flatten

/-- Contents of the state file after a run: opened in append mode (creating
it when missing) exactly when `opened`; untouched otherwise. -/
def stateFileAfter (stateFile : Option (List String)) (r : RunResult) :
    Option (List String) :=
  if r.opened then some (stateFile.getD [] ++ appendedLines r.appended)
  else stateFile

/-- Monotone growth of the tracker marks and of the three traces. -/
def LoopLE (s t : LoopState) : Prop :=
  (∀ p ∈ s.st.FILE_PATH_SEEN, p ∈ t.st.FILE_PATH_SEEN) ∧
  (∀ di, devSeen s.st.DEVICE_INODES_SEEN di = true →
    devSeen t.st.DEVICE_INODES_SEEN di = true) ∧
  (∀ p ∈ s.invoked, p ∈ t.invoked) ∧
  (∀ p ∈ s.rewrittenList, p ∈ t.rewrittenList) ∧
  (∀ p ∈ s.appended, p ∈ t.appended)

/-- The loop invariant: every rewritten file has a known identity and is
marked (by path and identity) in the tracker; rewritten files have pairwise
distinct identities; every invoked path has an identity; when no exception is
propagating every invoked identity is marked; and invoked paths have pairwise
distinct identities. -/
def GoodState (fs : FS) (s : LoopState) : Prop :=
  (∀ p ∈ s.rewrittenList, ∃ di, fs.stat p = some di ∧
    p ∈ s.st.FILE_PATH_SEEN ∧ devSeen s.st.DEVICE_INODES_SEEN di = true) ∧
  List.Pairwise (fun p q => fs.stat p ≠ fs.stat q) s.rewrittenList ∧
  (∀ p ∈ s.invoked, ∃ di, fs.stat p = some di) ∧
  (s.error = none → ∀ p ∈ s.invoked, ∀ di, fs.stat p = some di →
    devSeen s.st.DEVICE_INODES_SEEN di = true) ∧
  List.Pairwise (fun p q => fs.stat p ≠ fs.stat q) s.invoked

/-- A filesystem with `a` and `b` hardlinks of the same inode and a distinct
file `c`; used by concrete witnesses and counterexamples. -/
def fsHard : FS := ⟨[("a", ⟨1, 1⟩), ("b", ⟨1, 1⟩), ("c", ⟨1, 2⟩)]⟩

/-- An external command outcome that fails exactly on path `c`. -/
def oracleFailC : String → Bool := fun p => decide (p ≠ "c")

/-- An external command that always succeeds. -/
def oracleOk : String → Bool := fun _ => true

theorem mem_addElem {α : Type} [DecidableEq α] (a b : α) (l : List α) :
    b ∈ addElem a l ↔ b = a ∨ b ∈ l := by
  unfold addElem
  split
  · constructor
    · intro h; exact Or.inr h
    · rintro (rfl | h)
      · assumption
      · exact h
  · simp [List.mem_cons]

theorem devGet_devSet_self (m : List (Nat × List Nat)) (d : Nat) (v : List Nat) :
    devGet (devSet m d v) d = some v := by
  induction m with
  | nil => simp [devSet, devGet]
  | cons kv rest ih =>
    obtain ⟨k, w⟩ := kv
    by_cases h : k = d
    · simp [devSet, devGet, h]
    · simp [devSet, devGet, h, ih]

theorem devGet_devSet_other (m : List (Nat × List Nat)) (d d' : Nat)
    (v : List Nat) (h : d' ≠ d) : devGet (devSet m d v) d' = devGet m d' := by
  induction m with
  | nil =>
    simp only [devSet, devGet]
    rw [if_neg (fun hh : d = d' => h hh.symm)]
  | cons kv rest ih =>
    obtain ⟨k, w⟩ := kv
    by_cases hk : k = d
    · subst hk
      simp only [devSet, if_pos rfl, devGet]
      rw [if_neg (fun hh : k = d' => h hh.symm), if_neg (fun hh : k = d' => h hh.symm)]
    · simp only [devSet, if_neg hk, devGet]
      by_cases hk' : k = d'
      · rw [if_pos hk', if_pos hk']
      · rw [if_neg hk', if_neg hk', ih]

theorem devGet_addInode_self (m : List (Nat × List Nat)) (di : DevInode) :
    devGet (addInode m di) di.dev =
      some (addElem di.inode ((devGet m di.dev).getD [])) := by
  unfold addInode
  cases hget : devGet m di.dev with
  | none =>
    simp only [devGet, if_pos rfl, Option.getD_none]
    rfl
  | some inodes =>
    simp only [Option.getD_some]
    exact devGet_devSet_self m di.dev _

theorem devGet_addInode_other (m : List (Nat × List Nat)) (di : DevInode)
    (d' : Nat) (h : d' ≠ di.dev) : devGet (addInode m di) d' = devGet m d' := by
  unfold addInode
  cases hget : devGet m di.dev with
  | none =>
    simp only [devGet]
    rw [if_neg (fun hh : di.dev = d' => h hh.symm)]
  | some inodes => exact devGet_devSet_other m di.dev d' _ h

theorem devSeen_addInode (m : List (Nat × List Nat)) (di di' : DevInode) :
    devSeen (addInode m di) di' = true ↔ di' = di ∨ devSeen m di' = true := by
  unfold devSeen
  by_cases hd : di'.dev = di.dev
  · rw [hd, devGet_addInode_self]
    simp only [Option.getD_some, decide_eq_true_eq, mem_addElem]
    have hiff : di' = di ↔ di'.inode = di.inode := by
      constructor
      · intro h; rw [h]
      · intro h
        cases di; cases di'
        simp_all
    rw [hiff]
  · rw [devGet_addInode_other _ _ _ hd]
    simp only [decide_eq_true_eq]
    constructor
    · intro h; exact Or.inr h
    · rintro (rfl | h)
      · exact absurd rfl hd
      · exact h

theorem devSeen_addInode_self (m : List (Nat × List Nat)) (di : DevInode) :
    devSeen (addInode m di) di = true :=
  (devSeen_addInode m di di).mpr (Or.inl rfl)

theorem devSeen_addInode_mono (m : List (Nat × List Nat)) (di di' : DevInode)
    (h : devSeen m di' = true) : devSeen (addInode m di) di' = true :=
  (devSeen_addInode m di di').mpr (Or.inr h)

theorem mark_seen_some (fs : FS) (st : TrackerState) (p : String)
    (di : DevInode) : mark_seen fs st p (some di) = Except.ok (markKnown st p di) :=
  rfl

theorem mark_seen_none (fs : FS) (st : TrackerState) (p : String)
    (di : DevInode) (h : fs.stat p = some di) :
    mark_seen fs st p none = Except.ok (markKnown st p di) := by
  simp [mark_seen, h]

theorem mem_markKnown_paths (st : TrackerState) (p q : String) (di : DevInode) :
    q ∈ (markKnown st p di).FILE_PATH_SEEN ↔ q = p ∨ q ∈ st.FILE_PATH_SEEN := by
  simp [markKnown, mem_addElem]

theorem devSeen_markKnown (st : TrackerState) (p : String) (di di' : DevInode) :
    devSeen (markKnown st p di).DEVICE_INODES_SEEN di' = true ↔
      di' = di ∨ devSeen st.DEVICE_INODES_SEEN di' = true := by
  simp [markKnown, devSeen_addInode]

/-- Master shape of `check_seen`, phrased through `devSeen`. -/
theorem check_seen_cases (fs : FS) (st : TrackerState) (p : String) :
    check_seen fs st p =
      (if p ∈ st.FILE_PATH_SEEN then Except.ok none
        else
          match fs.stat p with
          | none => Except.error ()
          | some di =>
            if devSeen st.DEVICE_INODES_SEEN di = true then Except.ok none
            else Except.ok (some di)) := by
  unfold check_seen
  by_cases hp : p ∈ st.FILE_PATH_SEEN
  · simp [hp]
  · simp only [if_neg hp]
    cases hs : fs.stat p with
    | none => rfl
    | some di =>
      cases hget : devGet st.DEVICE_INODES_SEEN di.dev with
      | none => simp [devSeen, hget]
      | some inodes =>
        by_cases hin : di.inode ∈ inodes
        · simp [devSeen, hget, hin]
        · simp [devSeen, hget, hin]

/-- When the stat succeeds, `check_seen` is the decision procedure of the
claim: `None` exactly when the path or its identity is already recorded. -/
theorem check_seen_eq (fs : FS) (st : TrackerState) (p : String) (di : DevInode)
    (h : fs.stat p = some di) :
    check_seen fs st p =
      (if p ∈ st.FILE_PATH_SEEN ∨ devSeen st.DEVICE_INODES_SEEN di = true
        then Except.ok none else Except.ok (some di)) := by
  rw [check_seen_cases]
  by_cases hp : p ∈ st.FILE_PATH_SEEN
  · simp [hp]
  · simp only [if_neg hp, h]
    by_cases hds : devSeen st.DEVICE_INODES_SEEN di = true
    · simp [hds, hp]
    · simp [hds, hp]

/-- Eliminating an eligible `check_seen` result: the identity returned is the
stat result, the path is unseen, and so is its hardlink group. -/
theorem check_seen_ok_some (fs : FS) (st : TrackerState) (p : String)
    (di : DevInode) (h : check_seen fs st p = Except.ok (some di)) :
    fs.stat p = some di ∧ p ∉ st.FILE_PATH_SEEN ∧
      devSeen st.DEVICE_INODES_SEEN di = false := by
  rw [check_seen_cases] at h
  by_cases hp : p ∈ st.FILE_PATH_SEEN
  · rw [if_pos hp] at h
    exact absurd h (by simp)
  · rw [if_neg hp] at h
    cases hs : fs.stat p with
    | none =>
      simp only [hs] at h
      exact absurd h (by simp)
    | some d0 =>
      simp only [hs] at h
      by_cases hds : devSeen st.DEVICE_INODES_SEEN d0 = true
      · rw [if_pos hds] at h
        exact absurd h (by simp)
      · rw [if_neg hds] at h
        have hdi : d0 = di := by simpa using h
        subst hdi
        exact ⟨rfl, hp, by simpa using hds⟩

theorem loadLine_paths (fs : FS) (st : TrackerState) (l : String) (p : String) :
    p ∈ (loadLine fs st l).FILE_PATH_SEEN ↔
      p ∈ st.FILE_PATH_SEEN ∨
        (pyStrip l = p ∧ p ≠ "" ∧ fs.isfile p = true) := by
  unfold loadLine
  by_cases h0 : pyStrip l = ""
  · rw [if_pos h0]
    constructor
    · intro h; exact Or.inl h
    · rintro (h | ⟨hl, hne, _⟩)
      · exact h
      · exact absurd (hl ▸ h0) hne
  · rw [if_neg h0]
    by_cases h1 : fs.isfile (pyStrip l) = true
    · rw [if_pos h1]
      obtain ⟨di, hdi⟩ : ∃ di, fs.stat (pyStrip l) = some di := by
        unfold FS.isfile at h1
        exact Option.isSome_iff_exists.mp h1
      rw [mark_seen_none fs st (pyStrip l) di hdi]
      rw [mem_markKnown_paths]
      constructor
      · rintro (rfl | h)
        · exact Or.inr ⟨rfl, h0, h1⟩
        · exact Or.inl h
      · rintro (h | ⟨hl, hne, hf⟩)
        · exact Or.inr h
        · exact Or.inl hl.symm
    · rw [if_neg h1]
      constructor
      · intro h; exact Or.inl h
      · rintro (h | ⟨hl, hne, hf⟩)
        · exact h
        · exact absurd (hl ▸ hf) h1

theorem loadLine_dev (fs : FS) (st : TrackerState) (l : String) (di : DevInode) :
    devSeen (loadLine fs st l).DEVICE_INODES_SEEN di = true ↔
      devSeen st.DEVICE_INODES_SEEN di = true ∨
        (pyStrip l ≠ "" ∧ fs.stat (pyStrip l) = some di) := by
  unfold loadLine
  by_cases h0 : pyStrip l = ""
  · rw [if_pos h0]
    constructor
    · intro h; exact Or.inl h
    · rintro (h | ⟨hne, _⟩)
      · exact h
      · exact absurd h0 hne
  · rw [if_neg h0]
    by_cases h1 : fs.isfile (pyStrip l) = true
    · rw [if_pos h1]
      obtain ⟨d0, hd0⟩ : ∃ d0, fs.stat (pyStrip l) = some d0 := by
        unfold FS.isfile at h1
        exact Option.isSome_iff_exists.mp h1
      rw [mark_seen_none fs st (pyStrip l) d0 hd0]
      rw [devSeen_markKnown]
      constructor
      · rintro (rfl | h)
        · exact Or.inr ⟨h0, hd0⟩
        · exact Or.inl h
      · rintro (h | ⟨hne, hdi⟩)
        · exact Or.inr h
        · exact Or.inl (by rw [hd0] at hdi; exact (Option.some_inj.mp hdi).symm)
    · rw [if_neg h1]
      constructor
      · intro h; exact Or.inl h
      · rintro (h | ⟨hne, hdi⟩)
        · exact h
        · have : fs.isfile (pyStrip l) = true := by
            unfold FS.isfile
            rw [hdi]
            rfl
          exact absurd this h1

theorem loadLines_paths (fs : FS) (lines : List String) (st : TrackerState)
    (p : String) :
    p ∈ (loadLines fs lines st).FILE_PATH_SEEN ↔
      p ∈ st.FILE_PATH_SEEN ∨
        ∃ l ∈ lines, pyStrip l = p ∧ p ≠ "" ∧ fs.isfile p = true := by
  induction lines generalizing st with
  | nil => simp [loadLines]
  | cons l rest ih =>
    simp only [loadLines, List.foldl_cons]
    rw [show List.foldl (loadLine fs) (loadLine fs st l) rest =
        loadLines fs rest (loadLine fs st l) from rfl]
    rw [ih, loadLine_paths]
    simp only [List.mem_cons]
    constructor
    · rintro ((h | h) | ⟨l', hl', hrest⟩)
      · exact Or.inl h
      · exact Or.inr ⟨l, Or.inl rfl, h⟩
      · exact Or.inr ⟨l', Or.inr hl', hrest⟩
    · rintro (h | ⟨l', (rfl | hl'), hrest⟩)
      · exact Or.inl (Or.inl h)
      · exact Or.inl (Or.inr hrest)
      · exact Or.inr ⟨l', hl', hrest⟩

theorem loadLines_dev (fs : FS) (lines : List String) (st : TrackerState)
    (di : DevInode) :
    devSeen (loadLines fs lines st).DEVICE_INODES_SEEN di = true ↔
      devSeen st.DEVICE_INODES_SEEN di = true ∨
        ∃ l ∈ lines, pyStrip l ≠ "" ∧ fs.stat (pyStrip l) = some di := by
  induction lines generalizing st with
  | nil => simp [loadLines]
  | cons l rest ih =>
    simp only [loadLines, List.foldl_cons]
    rw [show List.foldl (loadLine fs) (loadLine fs st l) rest =
        loadLines fs rest (loadLine fs st l) from rfl]
    rw [ih, loadLine_dev]
    simp only [List.mem_cons]
    constructor
    · rintro ((h | h) | ⟨l', hl', hrest⟩)
      · exact Or.inl h
      · exact Or.inr ⟨l, Or.inl rfl, h⟩
      · exact Or.inr ⟨l', Or.inr hl', hrest⟩
    · rintro (h | ⟨l', (rfl | hl'), hrest⟩)
      · exact Or.inl (Or.inl h)
      · exact Or.inl (Or.inr hrest)
      · exact Or.inr ⟨l', hl', hrest⟩

theorem eligibleB_true (fs : FS) (st : TrackerState) (p : String) :
    eligibleB fs st p = true ↔ ∃ di, check_seen fs st p = Except.ok (some di) := by
  unfold eligibleB
  cases h : check_seen fs st p with
  | error e => simp
  | ok v =>
    cases v with
    | none => simp
    | some di => simp

theorem mem_collect_files (fs : FS) (st : TrackerState) (walk : List String)
    (p : String) :
    p ∈ collect_files fs st walk ↔
      p ∈ walk ∧ fs.isfile p = true ∧ eligibleB fs st p = true := by
  unfold collect_files
  rw [List.mem_filter]
  simp [Bool.and_eq_true]

theorem finishRewrite_eq (fs : FS) (dryRun : Bool) (s : LoopState)
    (p : String) (di : DevInode) :
    finishRewrite fs dryRun s p di =
      (if dryRun then
        { s with numRewritten := s.numRewritten + 1
                 rewrittenList := s.rewrittenList ++ [p]
                 st := markKnown s.st p di }
      else
        { s with numRewritten := s.numRewritten + 1
                 rewrittenList := s.rewrittenList ++ [p]
                 st := markKnown s.st p di
                 appended := s.appended ++ [p] }) :=
  rfl

/-- Case eliminator for one loop iteration: a property holds of
`processFile`'s result as soon as it holds of the explicit outcome state in
each of the six reachable branches. -/
theorem processFile_cases (motive : LoopState → Prop) (fs : FS)
    (oracle : String → Bool) (dryRun : Bool) (s : LoopState) (p : String)
    (hskip1 : fs.isfile p = false →
      motive { s with numProcessed := s.numProcessed + 1 })
    (hskip2 : fs.isfile p = true → check_seen fs s.st p = Except.ok none →
      motive { s with numProcessed := s.numProcessed + 1 })
    (hos : fs.isfile p = true → check_seen fs s.st p = Except.error () →
      motive { s with numProcessed := s.numProcessed + 1
                      error := some PyError.oSError })
    (hdry : ∀ di, dryRun = true → fs.isfile p = true →
      check_seen fs s.st p = Except.ok (some di) →
      motive { s with numProcessed := s.numProcessed + 1
                      numRewritten := s.numRewritten + 1
                      rewrittenList := s.rewrittenList ++ [p]
                      st := markKnown s.st p di })
    (hreal : ∀ di, dryRun = false → fs.isfile p = true →
      check_seen fs s.st p = Except.ok (some di) → oracle p = true →
      motive { s with numProcessed := s.numProcessed + 1
                      invoked := s.invoked ++ [p]
                      numRewritten := s.numRewritten + 1
                      rewrittenList := s.rewrittenList ++ [p]
                      st := markKnown s.st p di
                      appended := s.appended ++ [p] })
    (hfail : ∀ di, dryRun = false → fs.isfile p = true →
      check_seen fs s.st p = Except.ok (some di) → oracle p = false →
      motive { s with numProcessed := s.numProcessed + 1
                      invoked := s.invoked ++ [p]
                      error := some PyError.attributeError }) :
    motive (processFile fs oracle dryRun s p) := by
  unfold processFile
  by_cases hf : fs.isfile p = true
  · rw [if_pos hf]
    cases hc : check_seen fs s.st p with
    | error e =>
      cases e
      exact hos hf hc
    | ok v =>
      cases v with
      | none => exact hskip2 hf hc
      | some di =>
        cases hd : dryRun with
        | true =>
          simp only [if_true]
          rw [finishRewrite_eq]
          simp only [if_true]
          exact hdry di hd hf hc
        | false =>
          simp only [Bool.false_eq_true, if_false]
          cases ho : oracle p with
          | true =>
            simp only [checkCall, ho, if_true]
            rw [finishRewrite_eq]
            simp only [Bool.false_eq_true, if_false]
            exact hreal di hd hf hc ho
          | false =>
            simp only [checkCall, ho, Bool.false_eq_true, if_false]
            exact hfail di hd hf hc ho
  · rw [if_neg hf]
    exact hskip1 (by simpa using hf)

theorem processFile_numProcessed (fs : FS) (oracle : String → Bool)
    (dryRun : Bool) (s : LoopState) (p : String) :
    (processFile fs oracle dryRun s p).numProcessed = s.numProcessed + 1 := by
  apply processFile_cases (fun t => t.numProcessed = s.numProcessed + 1) <;>
    intros <;> rfl

theorem LoopLE.rfl (s : LoopState) : LoopLE s s :=
  ⟨fun _ h => h, fun _ h => h, fun _ h => h, fun _ h => h, fun _ h => h⟩

theorem runLoop_nil (fs : FS) (oracle : String → Bool) (dryRun : Bool)
    (s : LoopState) : runLoop fs oracle dryRun s [] = s := rfl

theorem runLoop_cons_none (fs : FS) (oracle : String → Bool) (dryRun : Bool)
    (s : LoopState) (p : String) (rest : List String) (h : s.error = none) :
    runLoop fs oracle dryRun s (p :: rest) =
      runLoop fs oracle dryRun (processFile fs oracle dryRun s p) rest := by
  have hstep : runLoop fs oracle dryRun s (p :: rest) =
      match s.error with
      | some _ => s
      | none => runLoop fs oracle dryRun (processFile fs oracle dryRun s p) rest :=
    rfl
  rw [hstep, h]

theorem runLoop_err (fs : FS) (oracle : String → Bool) (dryRun : Bool)
    (s : LoopState) (l : List String) (e : PyError) (h : s.error = some e) :
    runLoop fs oracle dryRun s l = s := by
  cases l with
  | nil => rfl
  | cons p rest =>
    have hstep : runLoop fs oracle dryRun s (p :: rest) =
        match s.error with
        | some _ => s
        | none =>
          runLoop fs oracle dryRun (processFile fs oracle dryRun s p) rest :=
      rfl
    rw [hstep, h]

/-- Induction principle along the loop: any property preserved by one
iteration (from a non-propagating state) transports from the entry state to
the exit state. -/
theorem runLoop_ind (motive : LoopState → Prop) (fs : FS)
    (oracle : String → Bool) (dryRun : Bool)
    (hstep : ∀ s q, s.error = none → motive s →
      motive (processFile fs oracle dryRun s q)) :
    ∀ (l : List String) (s : LoopState), motive s →
      motive (runLoop fs oracle dryRun s l) := by
  intro l
  induction l with
  | nil => intro s h; exact h
  | cons p rest ih =>
    intro s h
    cases he : s.error with
    | some e =>
      rw [runLoop_err fs oracle dryRun s _ e he]
      exact h
    | none =>
      rw [runLoop_cons_none fs oracle dryRun s p rest he]
      exact ih _ (hstep s p he h)

theorem runLoop_append (fs : FS) (oracle : String → Bool) (dryRun : Bool)
    (l1 l2 : List String) (s : LoopState) :
    runLoop fs oracle dryRun s (l1 ++ l2) =
      runLoop fs oracle dryRun (runLoop fs oracle dryRun s l1) l2 := by
  induction l1 generalizing s with
  | nil => rfl
  | cons p rest ih =>
    cases he : s.error with
    | some e =>
      rw [runLoop_err fs oracle dryRun s _ e he,
        runLoop_err fs oracle dryRun s _ e he,
        runLoop_err fs oracle dryRun s l2 e he]
    | none =>
      rw [List.cons_append,
        runLoop_cons_none fs oracle dryRun s p _ he,
        runLoop_cons_none fs oracle dryRun s p rest he,
        ih]

/-- In a real run, the state-file appends track the rewritten files exactly. -/
theorem runLoop_appended_sync (fs : FS) (oracle : String → Bool)
    (l : List String) (s : LoopState) (h : s.appended = s.rewrittenList) :
    (runLoop fs oracle false s l).appended =
      (runLoop fs oracle false s l).rewrittenList := by
  refine runLoop_ind (fun t => t.appended = t.rewrittenList)
    fs oracle false ?_ l s h
  intro t p herr ht
  apply processFile_cases (fun u => u.appended = u.rewrittenList)
  · intro _; exact ht
  · intro _ _; exact ht
  · intro _ _; exact ht
  · intro di hd _ _; exact absurd hd (by simp)
  · intro di _ _ _ _
    rw [ht]
  · intro di _ _ _ _; exact ht

/-- A dry run never invokes the external command and never appends. -/
theorem runLoop_dry_frozen (fs : FS) (oracle : String → Bool)
    (l : List String) (s : LoopState) :
    (runLoop fs oracle true s l).invoked = s.invoked ∧
      (runLoop fs oracle true s l).appended = s.appended := by
  refine runLoop_ind
    (fun t => t.invoked = s.invoked ∧ t.appended = s.appended)
    fs oracle true ?_ l s ⟨rfl, rfl⟩
  intro t p herr ht
  apply processFile_cases
    (fun u => u.invoked = s.invoked ∧ u.appended = s.appended)
  · intro _; exact ht
  · intro _ _; exact ht
  · intro _ _; exact ht
  · intro di _ _ _; exact ht
  · intro di hd _ _ _; exact absurd hd (by simp)
  · intro di hd _ _ _; exact absurd hd (by simp)

/-- Every processed candidate bumps `num_processed` exactly once, so a loop
that ran to the end counted the whole candidate list. -/
theorem runLoop_count (fs : FS) (oracle : String → Bool) (dryRun : Bool) :
    ∀ (l : List String) (s : LoopState), s.error = none →
      (runLoop fs oracle dryRun s l).error = none →
      (runLoop fs oracle dryRun s l).numProcessed = s.numProcessed + l.length := by
  intro l
  induction l with
  | nil =>
    intro s _ _
    simp [runLoop_nil]
  | cons q rest ih =>
    intro s hs herr
    rw [runLoop_cons_none fs oracle dryRun s q rest hs] at herr ⊢
    cases he : (processFile fs oracle dryRun s q).error with
    | some e =>
      rw [runLoop_err fs oracle dryRun _ rest e he] at herr
      rw [he] at herr
      exact absurd herr (by simp)
    | none =>
      rw [ih _ he herr, processFile_numProcessed]
      simp [List.length_cons]
      omega

theorem processFile_good (fs : FS) (oracle : String → Bool) (dryRun : Bool)
    (s : LoopState) (p : String) (herr : s.error = none)
    (hg : GoodState fs s) : GoodState fs (processFile fs oracle dryRun s p) := by
  obtain ⟨hrw, hrwPW, hinvStat, hinvMark, hinvPW⟩ := hg
  apply processFile_cases (fun u => GoodState fs u)
  · intro _
    exact ⟨hrw, hrwPW, hinvStat, fun _ => hinvMark herr, hinvPW⟩
  · intro _ _
    exact ⟨hrw, hrwPW, hinvStat, fun _ => hinvMark herr, hinvPW⟩
  · intro _ _
    refine ⟨hrw, hrwPW, hinvStat, ?_, hinvPW⟩
    intro habs
    exact absurd habs (by simp)
  · intro di _ _ hc
    obtain ⟨hstat, hp, hds⟩ := check_seen_ok_some fs s.st p di hc
    refine ⟨?_, ?_, hinvStat, ?_, hinvPW⟩
    · intro q hq
      rcases List.mem_append.mp hq with hq2 | hq2
      · obtain ⟨dq, h1, h2, h3⟩ := hrw q hq2
        exact ⟨dq, h1, (mem_markKnown_paths _ _ _ _).mpr (Or.inr h2),
          (devSeen_markKnown _ _ _ _).mpr (Or.inr h3)⟩
      · have hq3 : q = p := by simpa using hq2
        subst hq3
        exact ⟨di, hstat, (mem_markKnown_paths _ _ _ _).mpr (Or.inl rfl),
          (devSeen_markKnown _ _ _ _).mpr (Or.inl rfl)⟩
    · rw [List.pairwise_append]
      refine ⟨hrwPW, by simp, ?_⟩
      intro a ha b hb
      have hb2 : b = p := by simpa using hb
      subst hb2
      obtain ⟨da, h1, _, h3⟩ := hrw a ha
      rw [h1, hstat]
      intro hcontra
      have : da = di := by simpa using hcontra
      subst this
      rw [h3] at hds
      exact absurd hds (by simp)
    · intro _ q hq dq hdq
      exact (devSeen_markKnown _ _ _ _).mpr (Or.inr (hinvMark herr q hq dq hdq))
  · intro di _ _ hc _
    obtain ⟨hstat, hp, hds⟩ := check_seen_ok_some fs s.st p di hc
    refine ⟨?_, ?_, ?_, ?_, ?_⟩
    · intro q hq
      rcases List.mem_append.mp hq with hq2 | hq2
      · obtain ⟨dq, h1, h2, h3⟩ := hrw q hq2
        exact ⟨dq, h1, (mem_markKnown_paths _ _ _ _).mpr (Or.inr h2),
          (devSeen_markKnown _ _ _ _).mpr (Or.inr h3)⟩
      · have hq3 : q = p := by simpa using hq2
        subst hq3
        exact ⟨di, hstat, (mem_markKnown_paths _ _ _ _).mpr (Or.inl rfl),
          (devSeen_markKnown _ _ _ _).mpr (Or.inl rfl)⟩
    · rw [List.pairwise_append]
      refine ⟨hrwPW, by simp, ?_⟩
      intro a ha b hb
      have hb2 : b = p := by simpa using hb
      subst hb2
      obtain ⟨da, h1, _, h3⟩ := hrw a ha
      rw [h1, hstat]
      intro hcontra
      have : da = di := by simpa using hcontra
      subst this
      rw [h3] at hds
      exact absurd hds (by simp)
    · intro q hq
      rcases List.mem_append.mp hq with hq2 | hq2
      · exact hinvStat q hq2
      · have hq3 : q = p := by simpa using hq2
        subst hq3
        exact ⟨di, hstat⟩
    · intro _ q hq dq hdq
      rcases List.mem_append.mp hq with hq2 | hq2
      · exact (devSeen_markKnown _ _ _ _).mpr
          (Or.inr (hinvMark herr q hq2 dq hdq))
      · have hq3 : q = p := by simpa using hq2
        subst hq3
        rw [hstat] at hdq
        have : dq = di := by simpa using hdq.symm
        subst this
        exact (devSeen_markKnown _ _ _ _).mpr (Or.inl rfl)
    · rw [List.pairwise_append]
      refine ⟨hinvPW, by simp, ?_⟩
      intro a ha b hb
      have hb2 : b = p := by simpa using hb
      subst hb2
      obtain ⟨da, h1⟩ := hinvStat a ha
      have h3 := hinvMark herr a ha da h1
      rw [h1, hstat]
      intro hcontra
      have : da = di := by simpa using hcontra
      subst this
      rw [h3] at hds
      exact absurd hds (by simp)
  · intro di _ _ hc _
    obtain ⟨hstat, hp, hds⟩ := check_seen_ok_some fs s.st p di hc
    refine ⟨hrw, hrwPW, ?_, ?_, ?_⟩
    · intro q hq
      rcases List.mem_append.mp hq with hq2 | hq2
      · exact hinvStat q hq2
      · have hq3 : q = p := by simpa using hq2
        subst hq3
        exact ⟨di, hstat⟩
    · intro habs
      exact absurd habs (by simp)
    · rw [List.pairwise_append]
      refine ⟨hinvPW, by simp, ?_⟩
      intro a ha b hb
      have hb2 : b = p := by simpa using hb
      subst hb2
      obtain ⟨da, h1⟩ := hinvStat a ha
      have h3 := hinvMark herr a ha da h1
      rw [h1, hstat]
      intro hcontra
      have : da = di := by simpa using hcontra
      subst this
      rw [h3] at hds
      exact absurd hds (by simp)

theorem goodState_init (fs : FS) (st : TrackerState) :
    GoodState fs (initLoop st) := by
  refine ⟨?_, ?_, ?_, ?_, ?_⟩ <;> simp [initLoop, GoodState]

theorem runLoop_good (fs : FS) (oracle : String → Bool) (dryRun : Bool)
    (l : List String) (st : TrackerState) :
    GoodState fs (runLoop fs oracle dryRun (initLoop st) l) :=
  runLoop_ind (fun t => GoodState fs t) fs oracle dryRun
    (fun s q herr hg => processFile_good fs oracle dryRun s q herr hg) l
    (initLoop st) (goodState_init fs st)

theorem rewrite_zfs_files_error_eq (fs : FS) (oracle : String → Bool)
    (st : TrackerState) (files : List String) (d : Bool) :
    (rewrite_zfs_files fs oracle st files d).error =
      (match (runLoop fs oracle d (initLoop st) files).error with
        | some e => some e
        | none =>
          if (runLoop fs oracle d (initLoop st) files).numProcessed
              = files.length then none
          else some PyError.assertionError) :=
  rfl

/-- C5: for every path that can be stat'ed, `check_seen` returns the file's
device/inode identity if and only if the path is not in the seen-path set and
its (device, inode) pair is not in the seen-inode index; otherwise it returns
the not-eligible signal `None` (and hence not an identity). -/
theorem c5_check_seen_contract (fs : FS) (st : TrackerState) (p : String)
    (di : DevInode) (h : fs.stat p = some di) :
    (check_seen fs st p = Except.ok (some di) ↔
      p ∉ st.FILE_PATH_SEEN ∧ devSeen st.DEVICE_INODES_SEEN di = false) ∧
    (check_seen fs st p = Except.ok none ↔
      p ∈ st.FILE_PATH_SEEN ∨ devSeen st.DEVICE_INODES_SEEN di = true) := by
  rw [check_seen_eq fs st p di h]
  by_cases hcond : p ∈ st.FILE_PATH_SEEN ∨ devSeen st.DEVICE_INODES_SEEN di = true
  · rw [if_pos hcond]
    constructor
    · constructor
      · intro hh
        exact absurd hh (by simp)
      · rintro ⟨h1, h2⟩
        rcases hcond with h3 | h3
        · exact absurd h3 h1
        · rw [h3] at h2
          exact absurd h2 (by simp)
    · constructor
      · intro _
        exact hcond
      · intro _
        rfl
  · rw [if_neg hcond]
    have h1 : p ∉ st.FILE_PATH_SEEN := fun hh => hcond (Or.inl hh)
    have h2 : devSeen st.DEVICE_INODES_SEEN di = false := by
      cases hh : devSeen st.DEVICE_INODES_SEEN di with
      | false => rfl
      | true => exact absurd (Or.inr hh) hcond
    constructor
    · constructor
      · intro _
        exact ⟨h1, h2⟩
      · intro _
        rfl
    · constructor
      · intro hh
        exact absurd hh (by simp)
      · intro hh
        exact absurd hh hcond

theorem c5_witness :
    fsHard.stat "a" = some ⟨1, 1⟩ ∧
    (check_seen fsHard emptyTracker "a" = Except.ok (some ⟨1, 1⟩) ↔
      "a" ∉ emptyTracker.FILE_PATH_SEEN ∧
        devSeen emptyTracker.DEVICE_INODES_SEEN ⟨1, 1⟩ = false) ∧
    (check_seen fsHard emptyTracker "a" = Except.ok none ↔
      "a" ∈ emptyTracker.FILE_PATH_SEEN ∨
        devSeen emptyTracker.DEVICE_INODES_SEEN ⟨1, 1⟩ = true) :=
  ⟨by decide,
    (c5_check_seen_contract fsHard emptyTracker "a" ⟨1, 1⟩ (by decide)).1,
    (c5_check_seen_contract fsHard emptyTracker "a" ⟨1, 1⟩ (by decide)).2⟩

/-- C7: loading the state file skips blank lines and lines whose (stripped)
path no longer resolves to a regular file, marks exactly the remaining lines'
paths seen, and a missing state file is a no-op.  (The embedded loader is a
total function: no error is raised on skipped lines.) -/
theorem c7_load_tolerates_stale (fs : FS) (st : TrackerState)
    (lines : List String) (p : String) :
    load_rewritten_paths fs none st = st ∧
    (p ∈ (load_rewritten_paths fs (some lines) st).FILE_PATH_SEEN ↔
      p ∈ st.FILE_PATH_SEEN ∨
        ∃ l ∈ lines, pyStrip l = p ∧ p ≠ "" ∧ fs.isfile p = true) :=
  ⟨rfl, loadLines_paths fs lines st p⟩

theorem c7_witness :
    load_rewritten_paths fsHard none emptyTracker = emptyTracker ∧
    ("a" ∈ (load_rewritten_paths fsHard (some ["", "gone", " a "])
        emptyTracker).FILE_PATH_SEEN ↔
      "a" ∈ emptyTracker.FILE_PATH_SEEN ∨
        ∃ l ∈ ["", "gone", " a "], pyStrip l = "a" ∧ "a" ≠ "" ∧
          fsHard.isfile "a" = true) :=
  c7_load_tolerates_stale fsHard emptyTracker ["", "gone", " a "] "a"

/-- C8: if the processing loop completes without an aborting error, the number
of iterations equals the candidate count, so the final
`assert num_processed == num_files` holds and the run ends without error. -/
theorem c8_assert_never_fires (fs : FS) (oracle : String → Bool)
    (st : TrackerState) (files : List String) (dry_run : Bool)
    (h : (runLoop fs oracle dry_run (initLoop st) files).error = none) :
    (rewrite_zfs_files fs oracle st files dry_run).numProcessed = files.length ∧
    (rewrite_zfs_files fs oracle st files dry_run).error = none := by
  have hcount := runLoop_count fs oracle dry_run files (initLoop st) rfl h
  have hnum : (rewrite_zfs_files fs oracle st files dry_run).numProcessed
      = files.length := by
    show (runLoop fs oracle dry_run (initLoop st) files).numProcessed = files.length
    rw [hcount]
    simp [initLoop]
  refine ⟨hnum, ?_⟩
  rw [rewrite_zfs_files_error_eq, h]
  rw [show (runLoop fs oracle dry_run (initLoop st) files).numProcessed
      = files.length from hnum]
  simp

theorem c8_witness :
    (runLoop fsHard oracleOk true (initLoop emptyTracker)
      ["a", "b", "c"]).error = none ∧
    (rewrite_zfs_files fsHard oracleOk emptyTracker ["a", "b", "c"]
      true).numProcessed = 3 ∧
    (rewrite_zfs_files fsHard oracleOk emptyTracker ["a", "b", "c"]
      true).error = none :=
  ⟨by decide,
    (c8_assert_never_fires fsHard oracleOk emptyTracker ["a", "b", "c"] true
      (by decide)).1,
    (c8_assert_never_fires fsHard oracleOk emptyTracker ["a", "b", "c"] true
      (by decide)).2⟩

/-- C4: a dry run never invokes the external rewrite action, never opens the
state file for append, appends nothing, and leaves the persisted state-file
contents unchanged. -/
theorem c4_dry_run_frame (fs : FS) (oracle : String → Bool) (st : TrackerState)
    (files : List String) (sf : Option (List String)) :
    (rewrite_zfs_files fs oracle st files true).invoked = [] ∧
    (rewrite_zfs_files fs oracle st files true).appended = [] ∧
    (rewrite_zfs_files fs oracle st files true).opened = false ∧
    stateFileAfter sf (rewrite_zfs_files fs oracle st files true) = sf := by
  have hfrozen := runLoop_dry_frozen fs oracle files (initLoop st)
  have hinv : (rewrite_zfs_files fs oracle st files true).invoked = [] := by
    show (runLoop fs oracle true (initLoop st) files).invoked = []
    rw [hfrozen.1]
    rfl
  have happ : (rewrite_zfs_files fs oracle st files true).appended = [] := by
    show (runLoop fs oracle true (initLoop st) files).appended = []
    rw [hfrozen.2]
    rfl
  have hop : (rewrite_zfs_files fs oracle st files true).opened = false := rfl
  refine ⟨hinv, happ, hop, ?_⟩
  unfold stateFileAfter
  rw [hop]
  simp

/-- C1: within a single run, at most one path of any hardlink group (two paths
stat'ing to the same device/inode pair) is ever passed to the external rewrite
action, for every initial tracker state, candidate list, processing order,
command outcome and dry-run flag. -/
theorem c1_hardlink_invoked_once (fs : FS) (oracle : String → Bool)
    (st : TrackerState) (files : List String) (dry_run : Bool)
    (p q : String) (di : DevInode)
    (hp : fs.stat p = some di) (hq : fs.stat q = some di)
    (hpi : p ∈ (rewrite_zfs_files fs oracle st files dry_run).invoked)
    (hqi : q ∈ (rewrite_zfs_files fs oracle st files dry_run).invoked) :
    p = q := by
  have hg := runLoop_good fs oracle dry_run files st
  have hPW := hg.2.2.2.2
  by_contra hne
  have hsym : Symmetric (fun a b : String => fs.stat a ≠ fs.stat b) :=
    fun a b h => fun e => h e.symm
  have hR := hPW.forall hsym hpi hqi hne
  rw [hp, hq] at hR
  exact hR rfl

theorem c1_witness :
    fsHard.stat "a" = some ⟨1, 1⟩ ∧
    "a" ∈ (rewrite_zfs_files fsHard oracleOk emptyTracker ["a", "b"]
      false).invoked ∧
    "a" = "a" :=
  ⟨by decide, by decide,
    c1_hardlink_invoked_once fsHard oracleOk emptyTracker ["a", "b"] false
      "a" "a" ⟨1, 1⟩ (by decide) (by decide) (by decide) (by decide)⟩

/-- C9: in a dry run, every path counted as would-rewrite ends the run marked
seen in the in-memory tracker (by exact path and by its stat'ed device/inode),
no path is counted twice, and no two distinct counted paths share a
device/inode pair. -/
theorem c9_dry_run_marks_seen (fs : FS) (oracle : String → Bool)
    (st : TrackerState) (files : List String) :
    (∀ p ∈ (rewrite_zfs_files fs oracle st files true).rewrittenList,
      ∃ di, fs.stat p = some di ∧
        p ∈ (rewrite_zfs_files fs oracle st files true).st.FILE_PATH_SEEN ∧
        devSeen (rewrite_zfs_files fs oracle st files
          true).st.DEVICE_INODES_SEEN di = true) ∧
    (rewrite_zfs_files fs oracle st files true).rewrittenList.Nodup ∧
    (∀ p q di, fs.stat p = some di → fs.stat q = some di →
      p ∈ (rewrite_zfs_files fs oracle st files true).rewrittenList →
      q ∈ (rewrite_zfs_files fs oracle st files true).rewrittenList →
      p = q) := by
  have hg := runLoop_good fs oracle true files st
  refine ⟨hg.1, ?_, ?_⟩
  · exact hg.2.1.imp (fun hst => fun he => hst (by rw [he]))
  · intro p q di hp hq hpm hqm
    by_contra hne
    have hsym : Symmetric (fun a b : String => fs.stat a ≠ fs.stat b) :=
      fun a b h => fun e => h e.symm
    have hR := hg.2.1.forall hsym hpm hqm hne
    rw [hp, hq] at hR
    exact hR rfl

theorem c9_witness :
    fsHard.stat "a" = some ⟨1, 1⟩ ∧
    "a" ∈ (rewrite_zfs_files fsHard oracleOk emptyTracker ["a", "b", "c"]
      true).rewrittenList ∧
    "a" = "a" :=
  ⟨by decide, by decide,
    (c9_dry_run_marks_seen fsHard oracleOk emptyTracker ["a", "b", "c"]).2.2
      "a" "a" ⟨1, 1⟩ (by decide) (by decide) (by decide) (by decide)⟩

/-- C10: a state-file line whose stripped path still resolves to a regular
file is recorded in both the seen-path set and the seen-inode index, so
every other hardlink path to the same device/inode is excluded from the
candidate set of the new run, not merely the recorded path itself. -/
theorem c10_load_excludes_hardlink_group (fs : FS) (st : TrackerState)
    (lines walk : List String) (l p q : String) (di : DevInode)
    (hl : l ∈ lines) (hstrip : pyStrip l = p) (hne : p ≠ "")
    (hp : fs.stat p = some di) (hq : fs.stat q = some di) :
    p ∈ (load_rewritten_paths fs (some lines) st).FILE_PATH_SEEN ∧
    devSeen (load_rewritten_paths fs (some lines) st).DEVICE_INODES_SEEN di
      = true ∧
    q ∉ collect_files fs (load_rewritten_paths fs (some lines) st) walk := by
  have hisfile : fs.isfile p = true := by
    unfold FS.isfile
    rw [hp]
    rfl
  have hpaths : p ∈ (loadLines fs lines st).FILE_PATH_SEEN :=
    (loadLines_paths fs lines st p).mpr (Or.inr ⟨l, hl, hstrip, hne, hisfile⟩)
  have hdev : devSeen (loadLines fs lines st).DEVICE_INODES_SEEN di = true :=
    (loadLines_dev fs lines st di).mpr
      (Or.inr ⟨l, hl, by rw [hstrip]; exact hne, by rw [hstrip]; exact hp⟩)
  refine ⟨hpaths, hdev, ?_⟩
  intro hmem
  obtain ⟨_, hqf, helig⟩ :=
    (mem_collect_files fs (loadLines fs lines st) walk q).mp hmem
  obtain ⟨dq, hchk⟩ := (eligibleB_true fs (loadLines fs lines st) q).mp helig
  obtain ⟨hqstat, hqpaths, hqds⟩ :=
    check_seen_ok_some fs (loadLines fs lines st) q dq hchk
  rw [hq] at hqstat
  have : di = dq := by simpa using hqstat
  subst this
  rw [hdev] at hqds
  exact absurd hqds (by simp)

theorem c10_witness :
    pyStrip " a " = "a" ∧
    fsHard.stat "a" = some ⟨1, 1⟩ ∧
    fsHard.stat "b" = some ⟨1, 1⟩ ∧
    "a" ∈ (load_rewritten_paths fsHard (some [" a "])
      emptyTracker).FILE_PATH_SEEN ∧
    devSeen (load_rewritten_paths fsHard (some [" a "])
      emptyTracker).DEVICE_INODES_SEEN ⟨1, 1⟩ = true ∧
    "b" ∉ collect_files fsHard (load_rewritten_paths fsHard (some [" a "])
      emptyTracker) ["a", "b", "c"] :=
  ⟨by decide, by decide, by decide,
    (c10_load_excludes_hardlink_group fsHard emptyTracker [" a "]
      ["a", "b", "c"] " a " "a" "b" ⟨1, 1⟩ (by decide) (by decide) (by decide)
      (by decide) (by decide)).1,
    (c10_load_excludes_hardlink_group fsHard emptyTracker [" a "]
      ["a", "b", "c"] " a " "a" "b" ⟨1, 1⟩ (by decide) (by decide) (by decide)
      (by decide) (by decide)).2.1,
    (c10_load_excludes_hardlink_group fsHard emptyTracker [" a "]
      ["a", "b", "c"] " a " "a" "b" ⟨1, 1⟩ (by decide) (by decide) (by decide)
      (by decide) (by decide)).2.2⟩

theorem processFile_fail_eq (fs : FS) (oracle : String → Bool) (s : LoopState)
    (pN : String) (di : DevInode)
    (hfile : fs.isfile pN = true)
    (helig : check_seen fs s.st pN = Except.ok (some di))
    (hfail : oracle pN = false) :
    processFile fs oracle false s pN =
      { s with numProcessed := s.numProcessed + 1
               invoked := s.invoked ++ [pN]
               error := some PyError.attributeError } := by
  unfold processFile
  rw [if_pos hfile]
  simp only [helig, Bool.false_eq_true, if_false, checkCall, hfail]
  rfl

/-- C2 counterexample: candidate list `[a, b, c]` where `a` and `b` are
hardlinks of the same inode and the external command fails on `c`.  The
rewrite action fails on the third processed file, yet the second processed
file `b` was never appended to the state file (it was skipped as an already
rewritten hardlink), refuting "each of the first N-1 files has already been
appended". -/
theorem c2_counterexample :
    (rewrite_zfs_files fsHard oracleFailC emptyTracker ["a", "b", "c"]
      false).error ≠ none ∧
    (rewrite_zfs_files fsHard oracleFailC emptyTracker ["a", "b", "c"]
      false).numProcessed = 3 ∧
    (rewrite_zfs_files fsHard oracleFailC emptyTracker ["a", "b", "c"]
      false).invoked = ["a", "c"] ∧
    "b" ∉ (rewrite_zfs_files fsHard oracleFailC emptyTracker ["a", "b", "c"]
      false).appended := by
  refine ⟨?_, by decide, by decide, by decide⟩
  decide

/-- C2 (amended): when the external rewrite action fails on the N-th
processed file, every one of the first N-1 processed files that was actually
rewritten (rather than skipped) has already been appended to the state file —
the appends and the rewrites coincide exactly — the N-th file is not
appended, no rewrite action is invoked for the remaining files, and the run
aborts with a propagating error. -/
theorem c2_fail_fast_amended (fs : FS) (oracle : String → Bool)
    (st : TrackerState) (pre post : List String) (pN : String) (di : DevInode)
    (herr : (runLoop fs oracle false (initLoop st) pre).error = none)
    (hfile : fs.isfile pN = true)
    (helig : check_seen fs (runLoop fs oracle false (initLoop st) pre).st pN
      = Except.ok (some di))
    (hfail : oracle pN = false) :
    (rewrite_zfs_files fs oracle st (pre ++ pN :: post) false).appended =
      (runLoop fs oracle false (initLoop st) pre).appended ∧
    (runLoop fs oracle false (initLoop st) pre).appended =
      (runLoop fs oracle false (initLoop st) pre).rewrittenList ∧
    pN ∉ (rewrite_zfs_files fs oracle st (pre ++ pN :: post) false).appended ∧
    (rewrite_zfs_files fs oracle st (pre ++ pN :: post) false).invoked =
      (runLoop fs oracle false (initLoop st) pre).invoked ++ [pN] ∧
    (rewrite_zfs_files fs oracle st (pre ++ pN :: post) false).error ≠ none := by
  have hrun : runLoop fs oracle false (initLoop st) (pre ++ pN :: post) =
      { runLoop fs oracle false (initLoop st) pre with
        numProcessed := (runLoop fs oracle false (initLoop st) pre).numProcessed + 1
        invoked := (runLoop fs oracle false (initLoop st) pre).invoked ++ [pN]
        error := some PyError.attributeError } := by
    rw [runLoop_append, runLoop_cons_none fs oracle false _ pN post herr,
      processFile_fail_eq fs oracle _ pN di hfile helig hfail]
    exact runLoop_err fs oracle false _ post PyError.attributeError rfl
  have hsync : (runLoop fs oracle false (initLoop st) pre).appended =
      (runLoop fs oracle false (initLoop st) pre).rewrittenList :=
    runLoop_appended_sync fs oracle pre (initLoop st) rfl
  have happ : (rewrite_zfs_files fs oracle st (pre ++ pN :: post)
      false).appended = (runLoop fs oracle false (initLoop st) pre).appended := by
    show (runLoop fs oracle false (initLoop st) (pre ++ pN :: post)).appended = _
    rw [hrun]
  refine ⟨happ, hsync, ?_, ?_, ?_⟩
  · rw [happ, hsync]
    intro hmem
    have hg := runLoop_good fs oracle false pre st
    obtain ⟨dN, _, hNpaths, _⟩ := hg.1 pN hmem
    obtain ⟨_, hNnot, _⟩ := check_seen_ok_some fs _ pN di helig
    exact absurd hNpaths hNnot
  · show (runLoop fs oracle false (initLoop st) (pre ++ pN :: post)).invoked = _
    rw [hrun]
  · rw [rewrite_zfs_files_error_eq, hrun]
    simp

theorem c2_witness :
    (runLoop fsHard oracleFailC false (initLoop emptyTracker)
      ["a", "b"]).error = none ∧
    fsHard.isfile "c" = true ∧
    check_seen fsHard
      (runLoop fsHard oracleFailC false (initLoop emptyTracker)
        ["a", "b"]).st "c" = Except.ok (some ⟨1, 2⟩) ∧
    oracleFailC "c" = false ∧
    ((rewrite_zfs_files fsHard oracleFailC emptyTracker
        (["a", "b"] ++ ["c"]) false).appended =
      (runLoop fsHard oracleFailC false (initLoop emptyTracker)
        ["a", "b"]).appended ∧
     (runLoop fsHard oracleFailC false (initLoop emptyTracker)
        ["a", "b"]).appended =
      (runLoop fsHard oracleFailC false (initLoop emptyTracker)
        ["a", "b"]).rewrittenList ∧
     "c" ∉ (rewrite_zfs_files fsHard oracleFailC emptyTracker
        (["a", "b"] ++ ["c"]) false).appended ∧
     (rewrite_zfs_files fsHard oracleFailC emptyTracker
        (["a", "b"] ++ ["c"]) false).invoked =
      (runLoop fsHard oracleFailC false (initLoop emptyTracker)
        ["a", "b"]).invoked ++ ["c"] ∧
     (rewrite_zfs_files fsHard oracleFailC emptyTracker
        (["a", "b"] ++ ["c"]) false).error ≠ none) :=
  ⟨by decide, by decide, by decide, by decide,
    c2_fail_fast_amended fsHard oracleFailC emptyTracker ["a", "b"] [] "c"
      ⟨1, 2⟩ (by decide) (by decide) (by decide) (by decide)⟩

/-- C6: when the external command fails, the run does abort at once, but the
claimed diagnostic detail is never surfaced: `subprocess.check_call` captures
no output, so the raised `CalledProcessError` carries `stderr = None`, and the
handler's `e.stderr.decode()` itself raises `AttributeError` before the
message is printed or the original error is re-raised.  The propagated
exception is an `AttributeError` carrying no captured error output. -/
theorem c6_diagnostic_lost :
    checkCall oracleFailC "c" = Except.error (PyError.calledProcessError none) ∧
    rewriteErrorOf (PyError.calledProcessError none) = PyError.attributeError ∧
    (rewrite_zfs_files fsHard oracleFailC emptyTracker ["a", "b", "c"]
      false).error = some PyError.attributeError := by
  refine ⟨by decide, rfl, by decide⟩

end ZfsRewrite
